import Mathlib

/-!
Verification of the smallorange-gateway request pipeline against its
natural-language specification.

The gateway source (src/index.js) is shallowly embedded below:

* JavaScript scalar and object values are modelled by `JSVal` (finite
  numbers as exact decimal pairs, mantissa and power of ten: the only
  numeric facts the claims use are which parse branch is taken and equality
  of small decimal literals, both unaffected by binary floating-point
  rounding);
* the pure helpers `parseValue`, `qs`, `parseUri` are direct transcriptions
  of the methods of the same names;
* the request pipeline (`handleAuth`, the role gate, `callLambda`, `handle`)
  is embedded with its external collaborators (JWT verify/decode, the lambda
  invoker, the cache driver) as explicit oracle parameters, and with the
  eager/lazy split of the reactive chains made explicit: building an
  observable runs the synchronous prefix of the method, subscribing runs the
  rest;
* a newer revision of the gateway — whose source the repository bundles
  alongside src/index.js and whose unit tests are among the repository's
  test files — contributes a per-route authenticator `handleAuth(lambda,
  args)`; its synchronous part is transcribed in `GatewayNext` and
  contrasted with the program's resolver call sites.
-/

namespace JS

/-- JavaScript values as used by the gateway: strings, finite numbers
(represented exactly as mantissa times a power of ten), infinities,
booleans, null, undefined and plain objects (ordered key/value lists, as JS
object properties are ordered). -/
inductive JSVal where
  | str (s : String)
  | num (m : ℤ) (e : ℤ)
  | inf (pos : Bool)
  | boolV (b : Bool)
  | nullV
  | undef
  | obj (fields : List (String × JSVal))

/-- A JavaScript object: an ordered association list of own properties. -/
abbrev JSObj := List (String × JSVal)

mutual

def decEqVal : (a b : JSVal) → Decidable (a = b)
  | .str x, .str y =>
    if h : x = y then .isTrue (congrArg JSVal.str h)
    else .isFalse (fun hh => h (JSVal.str.inj hh))
  | .num x e, .num y f =>
    if h : x = y then
      if h2 : e = f then .isTrue (by rw [h, h2])
      else .isFalse (fun hh => h2 (JSVal.num.inj hh).2
      )
    else .isFalse (fun hh => h (JSVal.num.inj hh).1)
  | .inf x, .inf y =>
    if h : x = y then .isTrue (congrArg JSVal.inf h)
    else .isFalse (fun hh => h (JSVal.inf.inj hh))
  | .boolV x, .boolV y =>
    if h : x = y then .isTrue (congrArg JSVal.boolV h)
    else .isFalse (fun hh => h (JSVal.boolV.inj hh))
  | .nullV, .nullV => .isTrue rfl
  | .undef, .undef => .isTrue rfl
  | .obj xs, .obj ys =>
    match decEqFields xs ys with
    | .isTrue h => .isTrue (congrArg JSVal.obj h)
    | .isFalse h => .isFalse (fun hh => h (JSVal.obj.inj hh))
  | .str _, .num _ _ | .str _, .inf _ | .str _, .boolV _ | .str _, .nullV
  | .str _, .undef | .str _, .obj _
  | .num _ _, .str _ | .num _ _, .inf _ | .num _ _, .boolV _ | .num _ _, .nullV
  | .num _ _, .undef | .num _ _, .obj _
  | .inf _, .str _ | .inf _, .num _ _ | .inf _, .boolV _ | .inf _, .nullV
  | .inf _, .undef | .inf _, .obj _
  | .boolV _, .str _ | .boolV _, .num _ _ | .boolV _, .inf _ | .boolV _, .nullV
  | .boolV _, .undef | .boolV _, .obj _
  | .nullV, .str _ | .nullV, .num _ _ | .nullV, .inf _ | .nullV, .boolV _
  | .nullV, .undef | .nullV, .obj _
  | .undef, .str _ | .undef, .num _ _ | .undef, .inf _ | .undef, .boolV _
  | .undef, .nullV | .undef, .obj _
  | .obj _, .str _ | .obj _, .num _ _ | .obj _, .inf _ | .obj _, .boolV _
  | .obj _, .nullV | .obj _, .undef => .isFalse (fun h => by cases h)

def decEqFields : (xs ys : List (String × JSVal)) → Decidable (xs = ys)
  | [], [] => .isTrue rfl
  | [], _ :: _ => .isFalse (fun h => by cases h)
  | _ :: _, [] => .isFalse (fun h => by cases h)
  | (k, v) :: xs, (k2, v2) :: ys =>
    if hk : k = k2 then
      match decEqVal v v2 with
      | .isTrue hv =>
        match decEqFields xs ys with
        | .isTrue ht => .isTrue (by rw [hk, hv, ht])
        | .isFalse ht => .isFalse (fun h => ht (by injection h))
      | .isFalse hv =>
        .isFalse (fun h => by
          injection h with h1 h2
          exact hv (congrArg Prod.snd h1))
    else
      .isFalse (fun h => by
        injection h with h1 h2
        exact hk (congrArg Prod.fst h1))

end

instance : DecidableEq JSVal := decEqVal

/-- JavaScript truthiness ("", 0, false, null, undefined are falsy;
every object is truthy). -/
def truthy : JSVal → Bool
  | .str s => s ≠ ""
  | .num m _ => m ≠ 0
  | .inf _ => true
  | .boolV b => b
  | .nullV => false
  | .undef => false
  | .obj _ => true

/-- Property read `o[k]` on an object given as an ordered field list. -/
def objGet (o : JSObj) (k : String) : Option JSVal :=
  match o with
  | [] => none
  | (k0, v0) :: rest => if k0 = k then some v0 else objGet rest k

/-- Property write `o[k] = v`: updates an existing key in place (JS keeps
the original insertion order) or appends a fresh one. -/
def objSet (o : JSObj) (k : String) (v : JSVal) : JSObj :=
  match o with
  | [] => [(k, v)]
  | (k0, v0) :: rest => if k0 = k then (k, v) :: rest else (k0, v0) :: objSet rest k v

/-- `Object.assign(a, b)`: copies the own properties of `b` onto `a` in
order, later keys overwriting earlier ones. -/
def objAssign (a b : JSObj) : JSObj :=
  b.foldl (fun acc kv => objSet acc kv.1 kv.2) a

/-- Property read on an arbitrary value (destructuring a non-object yields
`undefined` for every key; the gateway never destructures null here). -/
def getField (v : JSVal) (k : String) : Option JSVal :=
  match v with
  | .obj fs => objGet fs k
  | _ => none

/-- Errors raised synchronously by the embedded JavaScript. -/
inductive JSErr where
  | uriError
  | referenceError (name : String)
  deriving DecidableEq

def decEqExcept {ε α : Type} [DecidableEq ε] [DecidableEq α] :
    (x y : Except ε α) → Decidable (x = y)
  | .ok a, .ok b =>
    if h : a = b then .isTrue (congrArg Except.ok h)
    else .isFalse (fun hh => h (Except.ok.inj hh))
  | .error a, .error b =>
    if h : a = b then .isTrue (congrArg Except.error h)
    else .isFalse (fun hh => h (Except.error.inj hh))
  | .ok _, .error _ => .isFalse (fun h => by cases h)
  | .error _, .ok _ => .isFalse (fun h => by cases h)

instance {ε α : Type} [DecidableEq ε] [DecidableEq α] : DecidableEq (Except ε α) :=
  decEqExcept

end JS

namespace JS

/-! Splitting a character list on a separator, as `String.prototype.split`
with a single-character separator: `"".split(c)` is `[""]`. -/

def splitChar (sep : Char) : List Char → List (List Char)
  | [] => [[]]
  | c :: rest =>
    let r := splitChar sep rest
    if c = sep then [] :: r
    else
      match r with
      | g :: gs => (c :: g) :: gs
      | [] => [[c]]

def splitStr (sep : Char) (s : String) : List String :=
  (splitChar sep s.data).map String.mk

/-! A model of `parseFloat`: skip leading whitespace, optional sign, then
either `Infinity` or a longest decimal-literal prefix
(`digits [. digits] [e [sign] digits]`); no parsable prefix means NaN,
modelled as `none`.  The parsed value is kept exactly as
mantissa * 10 ^ exponent. -/

def natOfDigits (ds : List Char) : ℕ :=
  ds.foldl (fun n c => n * 10 + (c.toNat - 48)) 0

def spanDigits (cs : List Char) : List Char × List Char :=
  (cs.takeWhile Char.isDigit, cs.dropWhile Char.isDigit)

def expDigits (cs : List Char) : ℤ :=
  (natOfDigits (cs.takeWhile Char.isDigit) : ℤ)

def expSigned (cs : List Char) : ℤ :=
  match cs with
  | '+' :: rest => expDigits rest
  | '-' :: rest => - expDigits rest
  | rest => expDigits rest

def expVal (cs : List Char) : ℤ :=
  match cs with
  | 'e' :: rest => expSigned rest
  | 'E' :: rest => expSigned rest
  | _ => 0

def mantissa? (cs : List Char) : Option (ℕ × ℕ × List Char) :=
  let ip := (spanDigits cs).1
  let r1 := (spanDigits cs).2
  match r1 with
  | '.' :: r2 =>
    let fp := (spanDigits r2).1
    let r3 := (spanDigits r2).2
    if ip.isEmpty ∧ fp.isEmpty then none
    else some (natOfDigits (ip ++ fp), fp.length, r3)
  | _ => if ip.isEmpty then none else some (natOfDigits ip, 0, r1)

def parseFloatChars (cs0 : List Char) : Option JSVal :=
  let cs1 := cs0.dropWhile Char.isWhitespace
  let sgn : Bool := match cs1 with | '-' :: _ => false | _ => true
  let cs : List Char := match cs1 with | '-' :: rest => rest | '+' :: rest => rest | rest => rest
  if cs.take 8 = "Infinity".data then some (.inf sgn)
  else
    match mantissa? cs with
    | none => none
    | some (m, flen, rest) =>
      some (.num (if sgn then (m : ℤ) else -(m : ℤ)) (expVal rest - (flen : ℤ)))

/-! A model of `decodeURIComponent` (ECMA-262 Decode): percent escapes are
collected as bytes, everything else stays a character; byte runs must form
valid UTF-8 (complete sequences, continuation bytes in range, no overlong
forms, no surrogates, at most U+10FFFF), otherwise the call throws
`URIError`, modelled as `none`. -/

def hexVal (c : Char) : Option ℕ :=
  if '0' ≤ c ∧ c ≤ '9' then some (c.toNat - 48)
  else if 'a' ≤ c ∧ c ≤ 'f' then some (c.toNat - 87)
  else if 'A' ≤ c ∧ c ≤ 'F' then some (c.toNat - 55)
  else none

def pctTokens : List Char → Option (List (ℕ ⊕ Char))
  | [] => some []
  | c :: rest =>
    if c = '%' then
      match rest with
      | c1 :: c2 :: rest2 =>
        match hexVal c1, hexVal c2 with
        | some h1, some h2 => (pctTokens rest2).map (fun ts => Sum.inl (16 * h1 + h2) :: ts)
        | _, _ => none
      | _ => none
    else (pctTokens rest).map (fun ts => Sum.inr c :: ts)

def contVal (b : ℕ) : Option ℕ :=
  if 128 ≤ b ∧ b < 192 then some (b - 128) else none

def utf8Combine : List (ℕ ⊕ Char) → Option (List Char)
  | [] => some []
  | Sum.inr c :: rest => (utf8Combine rest).map (fun cs => c :: cs)
  | Sum.inl b :: rest =>
    if b < 128 then (utf8Combine rest).map (fun cs => Char.ofNat b :: cs)
    else if 194 ≤ b ∧ b < 224 then
      match rest with
      | Sum.inl b2 :: rest2 =>
        match contVal b2 with
        | some v2 => (utf8Combine rest2).map (fun cs => Char.ofNat ((b - 192) * 64 + v2) :: cs)
        | none => none
      | _ => none
    else if 224 ≤ b ∧ b < 240 then
      match rest with
      | Sum.inl b2 :: Sum.inl b3 :: rest2 =>
        match contVal b2, contVal b3 with
        | some v2, some v3 =>
          let v := (b - 224) * 4096 + v2 * 64 + v3
          if 2048 ≤ v ∧ ¬ (55296 ≤ v ∧ v < 57344) then
            (utf8Combine rest2).map (fun cs => Char.ofNat v :: cs)
          else none
        | _, _ => none
      | _ => none
    else if 240 ≤ b ∧ b < 245 then
      match rest with
      | Sum.inl b2 :: Sum.inl b3 :: Sum.inl b4 :: rest2 =>
        match contVal b2, contVal b3, contVal b4 with
        | some v2, some v3, some v4 =>
          let v := (b - 240) * 262144 + v2 * 4096 + v3 * 64 + v4
          if 65536 ≤ v ∧ v < 1114112 then
            (utf8Combine rest2).map (fun cs => Char.ofNat v :: cs)
          else none
        | _, _, _ => none
      | _ => none
    else none

def decodeURIComponentJS (s : String) : Option String :=
  (pctTokens s.data).bind (fun ts => (utf8Combine ts).map String.mk)

end JS

namespace Gateway

open JS

/-- Transcription of `Gateway.parseValue` (src/index.js:112-128).  The
source checks `=== 'true' | true`, `=== 'false' | false`,
`=== 'null' | 'undefined' | null | undefined`, then `parseFloat`, then
`decodeURIComponent`.  There is no try/catch around the decode, so a
malformed percent escape raises `URIError`.  Non-string scalars resolve as
in JS: numbers and infinities survive `parseFloat` unchanged via their
canonical string form, and a plain object falls through to
`decodeURIComponent(String(value))`, which is the literal text
`[object Object]`. -/
def parseValue (value : JSVal) : Except JSErr JSVal :=
  match value with
  | .boolV b => .ok (.boolV b)
  | .nullV => .ok .nullV
  | .undef => .ok .nullV
  | .num m e => .ok (.num m e)
  | .inf p => .ok (.inf p)
  | .obj _ => .ok (.str "[object Object]")
  | .str s =>
    if s = "true" then .ok (.boolV true)
    else if s = "false" then .ok (.boolV false)
    else if s = "null" ∨ s = "undefined" then .ok .nullV
    else
      match parseFloatChars s.data with
      | some n => .ok n
      | none =>
        match decodeURIComponentJS s with
        | some d => .ok (.str d)
        | none => .error .uriError

/-- Transcription of `Gateway.qs` (src/index.js:130-145): split on `&`,
split each token on `=`, keep pairs whose key and value are both truthy
(nonempty), coercing the value with `parseValue`; last write wins per key.
A `URIError` from `parseValue` propagates. -/
def qs (value : Option String) : Except JSErr JSObj :=
  match value with
  | none => .ok []
  | some s =>
    if s = "" then .ok []
    else
      (splitStr '&' s).foldlM
        (fun red token =>
          let parts := splitStr '=' token
          let key := parts.getD 0 ""
          let v := parts.getD 1 ""
          if key ≠ "" ∧ v ≠ "" then
            (parseValue (.str v)).map (fun pv => objSet red key pv)
          else .ok red)
        []

/-- Removal of the trailing run of slashes: the effect of the source's
first regex replacement. -/
def stripTrailingSlashes (cs : List Char) : List Char :=
  (cs.reverse.dropWhile (fun c => c = '/')).reverse

/-- Collapse every run of two or more slashes to a single slash: the effect
of the source's second regex replacement. -/
def collapseSlashes : List Char → List Char
  | [] => []
  | [c] => [c]
  | a :: b :: rest =>
    if a = '/' ∧ b = '/' then collapseSlashes (b :: rest)
    else a :: collapseSlashes (b :: rest)

/-- Transcription of `Gateway.parseUri` (src/index.js:202-206): prepend a
slash, strip the trailing slash run, collapse slash runs, and fall back to
the root on the empty (falsy) string. -/
def parseUri (uri : String) : String :=
  let cs := collapseSlashes (stripTrailingSlashes ('/' :: uri.data))
  if cs.isEmpty then "/" else String.mk cs

end Gateway

namespace Gateway

open JS

/-- The canonical parsed request produced by `parseRequest`
(src/index.js:208-243).  Header values are strings in Node, modelled as a
JS object; `root` is the first path segment (or `/`), `uri` the normalized
pathname, `pathname`/`urlPath`/`urlQuery` the fields of the parsed URL. -/
structure Args where
  body : JSVal
  hasExtension : Bool
  headers : JSObj
  host : String
  method : String
  params : JSObj
  root : String
  urlPath : String
  pathname : String
  urlQuery : Option String
  uri : String
  deriving DecidableEq

/-- The request args object as the JS value it is (field order as in the
source literal), used where the pipeline passes `args` itself onward. -/
def argsToJS (a : Args) : JSVal :=
  .obj [("body", a.body),
        ("hasExtension", .boolV a.hasExtension),
        ("headers", .obj a.headers),
        ("host", .str a.host),
        ("method", .str a.method),
        ("params", .obj a.params),
        ("root", .str a.root),
        ("url", .obj [("path", .str a.urlPath),
                      ("pathname", .str a.pathname),
                      ("query", match a.urlQuery with | some q => .str q | none => .nullV)]),
        ("uri", .str a.uri)]

/-- JavaScript `a || b`. -/
def jsOr (a b : JSVal) : JSVal := if truthy a then a else b

/-- The message of a synchronous JS error as Node reports it. -/
def errMessageOf : JSErr → String
  | .referenceError n => n ++ " is not defined"
  | .uriError => "URI malformed"

/-- An error value travelling down the pipeline: a JS `Error` with an
optional `statusCode` property and its message (kept as the value the
source wrapped, since `new Error(x)` stringifies `x`). -/
structure PipeErr where
  statusCode : Option ℕ
  message : JSVal
  deriving DecidableEq

/-- Transcription of `Gateway.makeError` (src/index.js:195-200). -/
def makeError (statusCode : ℕ) (err : JSVal) : PipeErr :=
  ⟨some statusCode, if truthy err then err else .str "Unknown Error"⟩

/-- The gateway-level `auth` constructor option (src/index.js:74, used at
src/index.js:384-430).  Only whether `getToken` is a function matters: the
call sites `auth.getToken(params, headers, context)` and
`auth.getSecret(payload, params, headers, context)` (src/index.js:391,395)
name the undeclared identifier `context`, so evaluating the argument list
raises `ReferenceError` before either resolver runs; the function bodies
are therefore unreachable and not modelled. -/
inductive SecretCfg where
  | lit (v : JSVal)
  | fn
  deriving DecidableEq

structure GwAuth where
  getTokenIsFn : Bool
  getSecret : SecretCfg
  allowedFields : List String

/-- The per-route `auth` configuration shapes used by src/index.js:
absent/falsy, `true`, or an object optionally carrying `roles`. -/
inductive LamAuth where
  | noAuth
  | authTrue
  | authRoles (roles : List String)
  deriving DecidableEq

/-- A route-table entry (`lambdas[root]`), src/index.js data model. -/
structure Lambda where
  name : String
  version : Option String
  paramsOnly : Bool
  params : JSObj
  headers : JSObj
  base64Encoded : Bool
  auth : LamAuth

/-- The value `handleAuth` returns: an rxjs observable, split into its
synchronous description.  `pure` is `Observable.of`; `verifyThen` is the
`jwt.verify(token, secret).map(buildAuthParams)` chain, which performs no
verification until subscribed. -/
inductive AuthObs where
  | pure (args : Args)
  | verifyThen (token : JSVal) (secret : JSVal) (args : Args)
  deriving DecidableEq

/-- The `reduce` of src/index.js:399-406: keep the claims named by
`allowedFields.concat(['role'])` whose values are truthy. -/
def authFields (allowedFields : List String) (claims : JSObj) : JSObj :=
  (allowedFields ++ ["role"]).foldl
    (fun red key =>
      match objGet claims key with
      | some v => if truthy v then objSet red key v else red
      | none => red)
    []

/-- Transcription of `Gateway.handleAuth` (src/index.js:384-430), eager
part: resolve the token (`ReferenceError` if `getToken` is a function),
decode it, resolve the secret (`ReferenceError` if `getSecret` is a
function), and build the observable; with no token the observable carries
`params.auth = (role public)`, with no gateway auth it carries `args`
unchanged. -/
def handleAuth (decode : JSVal → Option JSObj) (auth : Option GwAuth) (args : Args) :
    Except JSErr AuthObs :=
  match auth with
  | none => .ok (.pure args)
  | some a =>
    if a.getTokenIsFn then .error (.referenceError "context")
    else
      let authorization := jsOr ((objGet args.headers "authorization").getD .undef)
        (jsOr ((objGet args.params "token").getD .undef) .nullV)
      if truthy authorization then
        let _payload := (decode authorization).getD []
        match a.getSecret with
        | .fn => .error (.referenceError "context")
        | .lit s => .ok (.verifyThen authorization s args)
      else
        .ok (.pure { args with
          params := objSet args.params "auth" (.obj [("role", .str "public")]) })

/-- Subscription semantics of the observable built by `handleAuth`:
running `jwt.verify` and, on success, the `.map` of src/index.js:398-415. -/
def runAuthObs (verify : JSVal → JSVal → Except String JSObj)
    (allowedFields : List String) : AuthObs → Except String Args
  | .pure a => .ok a
  | .verifyThen tok secret args =>
    match verify tok secret with
    | .error m => .error m
    | .ok claims =>
      .ok { args with
        params := objSet args.params "auth" (.obj (authFields allowedFields claims)) }

/-- The `.do` step of `handle` (src/index.js:330-338): throw 403 Forbidden
when the route requires auth and none was established, or when the route
lists `auth.roles` and the established role is not among them. -/
def roleGate (lam : Option Lambda) (args : Args) : Except PipeErr Unit :=
  let auth := objGet args.params "auth"
  let requiresAuth : Bool := match lam with
    | some l => l.auth ≠ LamAuth.noAuth
    | none => false
  let requiredRoles : Option (List String) := match lam with
    | some l => match l.auth with | .authRoles rs => some rs | _ => none
    | none => none
  let authTruthy : Bool := match auth with | some v => truthy v | none => false
  let roleOk : Bool := match requiredRoles with
    | some rs =>
      (match auth with
       | some v =>
         (match getField v "role" with
          | some (.str r) => decide (r ∈ rs)
          | _ => false)
       | none => false)
    | none => true
  if (requiresAuth ∧ ¬ authTruthy) ∨ (requiredRoles.isSome ∧ ¬ roleOk) then
    .error (makeError 403 (.str "Forbidden"))
  else .ok ()

/-- The external collaborators of one request, as deterministic oracles:
JWT verification and non-verifying decode, the lambda invoker (the parsed
response payload or a transport error), the cache driver, and the
gateway-level cache predicates `shouldCache`/`getCacheKey`. -/
structure Oracles where
  verify : JSVal → JSVal → Except String JSObj
  decode : JSVal → Option JSObj
  invoke : String → JSVal → String → Except String JSVal
  cacheGet : String → String → Except String JSVal
  cacheOp : String → JSObj → Except String JSVal
  shouldCache : Args → JSVal
  getCacheKey : Args → JSVal

/-- The payload `callLambda` hands to `invoke` (src/index.js:257-265):
the merged params alone under `paramsOnly`, the full envelope otherwise. -/
def lambdaPayload (lam : Lambda) (args : Args) : JSVal :=
  let mergedParams := objAssign lam.params args.params
  if lam.paramsOnly then .obj mergedParams
  else .obj [("method", .str args.method),
             ("headers", .obj args.headers),
             ("body", args.body),
             ("params", .obj mergedParams),
             ("uri", .str args.uri)]

/-- How `callLambda` reaches the invoker (src/index.js:257-280): through
the cache under (namespace, key) or directly. -/
inductive InvokeVia where
  | direct
  | viaCache (ns : String) (key : String)
  deriving DecidableEq

/-- The cache decision of `callLambda`: the cache is used when a driver is
configured and `shouldCache(args)` is truthy, under namespace `args.host`
and key `cachePrefix + getCacheKey(args)`; a non-string computed key falls
back to a direct invocation. -/
def cacheRoute (cacheConfigured : Bool) (shouldCache : Args → JSVal)
    (getCacheKey : Args → JSVal) (cachePfx : String) (args : Args) : InvokeVia :=
  if cacheConfigured ∧ truthy (shouldCache args) then
    match getCacheKey args with
    | .str k => .viaCache args.host (cachePfx ++ k)
    | _ => .direct
  else .direct

/-- An object-valued view of a JS value (`Object.assign` and the envelope
merge read own properties; non-objects contribute none of interest). -/
def asObj (v : JSVal) : JSObj :=
  match v with
  | .obj fs => fs
  | _ => []

/-- The response mapping of `callLambda` (src/index.js:281-304): an
envelope when the backend value carries truthy `body` and `headers`
(headers merged over `lambda.headers`), the raw value as body otherwise;
`base64Encoded` defaults to `lambda.base64Encoded || false` and
`statusCode` to 200. -/
structure Shaped where
  body : JSVal
  headers : JSObj
  base64Encoded : Bool
  statusCode : JSVal
  deriving DecidableEq

def shape (lam : Lambda) (response : JSVal) : Shaped :=
  let base64 : Bool := match getField response "base64Encoded" with
    | some .undef | none => lam.base64Encoded
    | some v => truthy v
  let statusCode : JSVal := match getField response "statusCode" with
    | some .undef | none => .num 200 0
    | some v => v
  match getField response "body", getField response "headers" with
  | some b, some h =>
    if truthy b ∧ truthy h then
      { body := b, headers := objAssign lam.headers (asObj h),
        base64Encoded := base64, statusCode := statusCode }
    else
      { body := response, headers := lam.headers,
        base64Encoded := base64, statusCode := statusCode }
  | _, _ =>
    { body := response, headers := lam.headers,
      base64Encoded := base64, statusCode := statusCode }

/-- Transcription of `Gateway.callLambda` (src/index.js:245-305): choose
cache or direct invocation, then shape the backend response. -/
def callLambda (o : Oracles) (cacheConfigured : Bool) (cachePfx : String)
    (lam : Lambda) (args : Args) : Except String Shaped :=
  let payload := lambdaPayload lam args
  let ver := (lam.version).getD "$LATEST"
  match cacheRoute cacheConfigured o.shouldCache o.getCacheKey cachePfx args with
  | .direct =>
    match o.invoke lam.name payload ver with
    | .error m => .error m
    | .ok raw => .ok (shape lam raw)
  | .viaCache ns key =>
    match o.cacheGet ns key with
    | .error m => .error m
    | .ok raw => .ok (shape lam raw)

def shapedToJS (s : Shaped) : JSVal :=
  .obj [("body", s.body), ("headers", .obj s.headers),
        ("base64Encoded", .boolV s.base64Encoded), ("statusCode", s.statusCode)]

/-- JavaScript `v >= c` for the shapes the pipeline compares (`statusCode
>= 400`); the pipeline only ever produces numbers or the 200 default
here. -/
def jsGE (v : JSVal) (c : ℤ) : Bool :=
  match v with
  | .num m e =>
    if 0 ≤ e then decide (c ≤ m * (10 : ℤ) ^ e.toNat)
    else decide (c * (10 : ℤ) ^ (-e).toNat ≤ m)
  | .inf p => p
  | _ => false

/-- The numeric value of a status code (integral in every produced case). -/
def statusNat (v : JSVal) : ℕ :=
  match v with
  | .num m e =>
    if 0 ≤ e then (m * (10 : ℤ) ^ e.toNat).toNat
    else (m / (10 : ℤ) ^ (-e).toNat).toNat
  | _ => 0

/-- What the gateway writes for one emission of the pipeline. -/
inductive HandleResult where
  | resp (statusCode : ℕ) (body : JSVal) (headers : JSObj) (base64Encoded : Bool)
  | errResp (statusCode : ℕ) (message : JSVal)
  deriving DecidableEq

/-- The subscription handler of `handle` (src/index.js:360-377): destructure
the emitted value, surface `statusCode >= 400` as an error (written with
that status, or 500 when falsy, by `writeError`), otherwise write the body
(or the whole emission when the body is falsy) with status 200 (`write`'s
default: the emitted statusCode is not forwarded on success). -/
def subscribeOp (response : JSVal) : HandleResult :=
  let body := (getField response "body").getD .nullV
  let headers : JSObj := match getField response "headers" with
    | some (.obj fs) => fs
    | _ => []
  let base64Encoded : Bool := match getField response "base64Encoded" with
    | some .undef | none => false
    | some v => truthy v
  let statusCode : JSVal := match getField response "statusCode" with
    | some .undef | none => .num 200 0
    | some v => v
  if jsGE statusCode 400 then
    let c := statusNat statusCode
    .errResp (if c = 0 then 500 else c) (if truthy body then body else response)
  else
    .resp 200 (if truthy body then body else response) headers base64Encoded

/-- The gateway configuration fixed at startup. -/
structure Config where
  auth : Option GwAuth
  lambdas : List (String × Lambda)
  cacheConfigured : Bool
  cachePfx : String

/-- Route lookup of `handle`: `this.lambdas[root] || this.lambdas['*']`
(src/index.js:326). -/
def routeOf (cfg : Config) (args : Args) : Option Lambda :=
  match cfg.lambdas.lookup args.root with
  | some l => some l
  | none => cfg.lambdas.lookup "*"

/-- The cache-admin operation named by the request body, with the
destructuring default `markToRefresh` (src/index.js:342-344). -/
def cacheOpField (body : JSVal) : JSVal :=
  match getField body "operation" with
  | some .undef | none => .str "markToRefresh"
  | some v => v

/-- The status line a `HandleResult` carries. -/
def statusOf : HandleResult → ℕ
  | .resp c _ _ _ => c
  | .errResp c _ => c

/-- The cache-admin operation name actually dispatched (the source indexes
`this.cacheDriver[cacheOperation]`; by the time it does, the guard has
ensured the field is one of the two operation strings). -/
def opNameOf (v : JSVal) : String :=
  match v with
  | .str s => s
  | _ => "markToRefresh"

/-- The auth stage of `handle` as subscribed for one request: run the
`handleAuth` observable, then the role gate (src/index.js:329-338); a jwt
error carries no status. -/
def authPipeline (cfg : Config) (o : Oracles) (lam : Option Lambda)
    (authObs : AuthObs) : Except PipeErr Args :=
  match runAuthObs o.verify ((cfg.auth.map GwAuth.allowedFields).getD []) authObs with
  | .error m => .error ⟨none, .str m⟩
  | .ok args2 =>
    match roleGate lam args2 with
    | .error e => .error e
    | .ok _ => .ok args2

/-- The reply of a dispatched cache-admin operation: the driver call on
`(namespace = host, …body)` mapped into `(operation: result)` and
subscribed. -/
def cacheAdminResult (o : Oracles) (args : Args) : HandleResult :=
  let opName := opNameOf (cacheOpField args.body)
  match o.cacheOp opName (objAssign [("namespace", .str args.host)] (asObj args.body)) with
  | .error m => .errResp 500 (.str m)
  | .ok result => subscribeOp (.obj [(opName, result)])

/-- Transcription of `Gateway.handle` after a successful `parseRequest`
(src/index.js:313-381).  Route lookup is `lambdas[root] || lambdas['*']`.
`handleAuth` is invoked eagerly (a `ReferenceError` there is caught by the
server wrapper and written as a 500; on a POST the raise would in fact
escape the asynchronous body-parser callback, which a per-request embedding
cannot express — the synchronous propagation is modelled).  A POST to
`/cache` with a configured driver and a `markToRefresh`/`unset` operation
replaces the pipeline with the cache call before anything subscribes;
otherwise the auth chain runs, then the role gate, then — outside the cache
path — the lambda; with neither a route nor a cache request the gateway
responds 404. -/
def handle (cfg : Config) (o : Oracles) (args : Args) : HandleResult :=
  let lam : Option Lambda := routeOf cfg args
  let cacheRequest : Prop := args.method = "POST" ∧ args.pathname = "/cache"
  match handleAuth o.decode cfg.auth args with
  | .error e => .errResp 500 (.str (errMessageOf e))
  | .ok authObs =>
    let authResult : Except PipeErr Args := authPipeline cfg o lam authObs
    if cacheRequest then
      if cfg.cacheConfigured ∧ (cacheOpField args.body = .str "markToRefresh"
          ∨ cacheOpField args.body = .str "unset") then
        cacheAdminResult o args
      else
        match authResult with
        | .error e => .errResp (e.statusCode.getD 500) e.message
        | .ok args2 => subscribeOp (argsToJS args2)
    else
      match lam with
      | none => .errResp 404 (.str "Not Found")
      | some l =>
        match authResult with
        | .error e => .errResp (e.statusCode.getD 500) e.message
        | .ok args2 =>
          match callLambda o cfg.cacheConfigured cfg.cachePfx l args2 with
          | .error m => .errResp 500 (.str m)
          | .ok shaped => subscribeOp (shapedToJS shaped)

end Gateway

namespace GatewayNext

open JS

/-! The repository bundles, next to src/index.js, the sources of the other
revisions of the gateway (README.md embeds them, and the newest revision's
unit tests are among the repository's test files).  That newer revision
replaces the gateway-level authenticator with a per-route
`handleAuth(lambda, args)` whose resolver call sites pass exactly
(params, headers) and (payload, params, headers); this namespace
transcribes its synchronous part from that source, used to contrast the
call sites of src/index.js:391,395. -/

/-- The per-route `auth` value of the newest revision: absent or falsy,
truthy but not an object, or a configuration object.  The `options` field
(passed through to `jwt.verify`) is absorbed into the verification
oracle. -/
inductive TokenResolverN where
  | absent
  | fn (f : JSObj → JSObj → JSVal)

inductive SecretResolverN where
  | lit (v : JSVal)
  | fn (f : JSObj → JSObj → JSObj → JSVal)

structure AuthSpecN where
  allowedFields : List String
  token : TokenResolverN
  secret : SecretResolverN
  requiredRoles : Option (List String)

inductive AuthValN where
  | absent
  | malformed
  | spec (a : AuthSpecN)

structure LambdaN where
  name : String
  auth : AuthValN

/-- The request fields the newest `handleAuth` consumes and rewrites. -/
structure ReqArgsN where
  params : JSObj
  headers : JSObj
  deriving DecidableEq

/-- The observable the newest `handleAuth` returns, split into its
synchronous description: a thrown configuration error, a pass-through, or
the `jwt.verify(...).map(fields).do(roleCheck).catch(403-wrap)` chain with
the eagerly resolved token and secret. -/
inductive AuthObsN where
  | err (e : Gateway.PipeErr)
  | pure (args : ReqArgsN)
  | chain (token : JSVal) (secret : JSVal) (allowedFields : List String)
      (requiredRoles : Option (List String)) (args : ReqArgsN)
  deriving DecidableEq

/-- Token resolution of the newest `handleAuth`: a function resolver is
called with exactly (params, headers); otherwise
`headers['authorization'] || params.token || null`. -/
def resolveTokenN (a : AuthSpecN) (args : ReqArgsN) : JSVal :=
  match a.token with
  | .fn f => f args.params args.headers
  | .absent =>
    Gateway.jsOr ((objGet args.headers "authorization").getD .undef)
      (Gateway.jsOr ((objGet args.params "token").getD .undef) .nullV)

/-- Secret resolution of the newest `handleAuth`: a function resolver is
called with exactly (payload, params, headers), a literal is used as is. -/
def resolveSecretN (a : AuthSpecN) (payload : JSObj) (args : ReqArgsN) : JSVal :=
  match a.secret with
  | .fn f => f payload args.params args.headers
  | .lit v => v

/-- Transcription of the newest `handleAuth(lambda, args)`, eager part:
no (or falsy) auth passes args through, a truthy non-object throws
"auth should be an object." (no status: the responder defaults to 500),
and otherwise the token and secret are resolved and the verification chain
is built; the payload is decoded without verification. -/
def handleAuthN (decode : JSVal → Option JSObj) (lam : Option LambdaN)
    (args : ReqArgsN) : AuthObsN :=
  match lam with
  | none => .pure args
  | some l =>
    match l.auth with
    | .absent => .pure args
    | .malformed => .err ⟨none, .str "auth should be an object."⟩
    | .spec a =>
      let gotToken := resolveTokenN a args
      let payload := (decode gotToken).getD []
      let gotSecret := resolveSecretN a payload args
      .chain gotToken gotSecret a.allowedFields a.requiredRoles args

end GatewayNext

/-! Fixtures pinned by the concrete evaluations and witnesses below. -/

namespace Gateway

/-- The adjacency relation a collapsed character list satisfies: no two
consecutive slashes. -/
def NoDbl (a b : Char) : Prop := ¬ (a = '/' ∧ b = '/')

/-- The route and request of the pinned paramsOnly scenario: default
request parameters width 200, height 200 and the query `width=10`. -/
def lamC5 : Lambda where
  name := "fn"
  version := none
  paramsOnly := true
  params := [("width", .num 200 0), ("height", .num 200 0)]
  headers := []
  base64Encoded := false
  auth := .noAuth

def argsC5 : Args where
  body := .obj []
  hasExtension := false
  headers := []
  host := "http://localhost"
  method := "GET"
  params := [("width", .num 10 0)]
  root := "/img"
  urlPath := "/img?width=10"
  pathname := "/img"
  urlQuery := some "width=10"
  uri := "/img"

/-- Oracle fixture used by the concrete evaluations below. -/
def oFix : Oracles where
  verify := fun _ _ => .error "invalid signature"
  decode := fun _ => none
  invoke := fun _ _ _ => .ok (.obj [])
  cacheGet := fun _ _ => .ok (.str "cached")
  cacheOp := fun _ _ => .ok (.obj [])
  shouldCache := fun _ => .boolV true
  getCacheKey := fun a => .str a.pathname

/-- The same oracle fixture with a non-string computed cache key. -/
def oFixKeyless : Oracles := { oFix with getCacheKey := fun _ => .nullV }

open JS

/-- C4 fixtures: a gateway auth with a function-valued `getToken`, one with
a function-valued `getSecret`, and a request carrying a query token. -/
def gC4token : GwAuth where
  getTokenIsFn := true
  getSecret := .lit (.str "mySecret")
  allowedFields := ["user"]

def gC4secret : GwAuth where
  getTokenIsFn := false
  getSecret := .fn
  allowedFields := ["user"]

def argsC4 : Args where
  body := .obj []
  hasExtension := false
  headers := []
  host := "http://localhost"
  method := "GET"
  params := [("token", .str "someToken")]
  root := "/"
  urlPath := "/?token=someToken"
  pathname := "/"
  urlQuery := some "token=someToken"
  uri := "/"

def decodeFix : JSVal → Option JSObj := fun _ => some [("role", .str "public")]

open JS

/-- C7 fixtures: no cache driver, no routes, no gateway auth, and a
POST /cache request asking for `unset`. -/
def cfgC7 : Config where
  auth := none
  lambdas := []
  cacheConfigured := false
  cachePfx := ""

def argsC7 : Args where
  body := .obj [("operation", .str "unset")]
  hasExtension := false
  headers := [("host", .str "http://localhost")]
  host := "http://localhost"
  method := "POST"
  params := []
  root := "/cache"
  urlPath := "/cache"
  pathname := "/cache"
  urlQuery := none
  uri := "/cache"

/-- A route protected by `auth.roles = ['admin']`. -/
def lamC2 : Lambda where
  name := "user-svc"
  version := none
  paramsOnly := false
  params := []
  headers := []
  base64Encoded := false
  auth := .authRoles ["admin"]

def cfgC2 : Config where
  auth := some { getTokenIsFn := false, getSecret := .lit (.str "s3cret"),
                 allowedFields := [] }
  lambdas := [("users", lamC2)]
  cacheConfigured := false
  cachePfx := ""

def argsC2 : Args where
  body := .obj []
  hasExtension := false
  headers := [("authorization", .str "tok"), ("host", .str "http://localhost")]
  host := "http://localhost"
  method := "GET"
  params := []
  root := "users"
  urlPath := "/users"
  pathname := "/users"
  urlQuery := none
  uri := "/users"

/-- Oracles that accept exactly the token `tok` under secret `s3cret`,
yielding the claim `role = user`. -/
def oC2 : Oracles where
  verify := fun t s =>
    if t = JS.JSVal.str "tok" ∧ s = JS.JSVal.str "s3cret"
    then .ok [("role", .str "user")] else .error "invalid signature"
  decode := fun _ => some []
  invoke := fun _ _ _ => .error "no invoker"
  cacheGet := fun _ _ => .error "no cache"
  cacheOp := fun _ _ => .error "no cache"
  shouldCache := fun _ => .nullV
  getCacheKey := fun _ => .nullV

def obsC2 : AuthObs := .verifyThen (.str "tok") (.str "s3cret") argsC2

def args2C2 : Args :=
  { argsC2 with params := [("auth", .obj [("role", .str "user")])] }

/-- C3 fixtures: the claim's wildcard-looking patterns installed verbatim
as route keys (to the program they are plain strings), the same table
extended with the program's real fallback key `*`, and a GET /x/param2
request as `parseRequest` builds it (root = `/` + first path segment). -/
def lamNamed (n : String) : Lambda where
  name := n
  version := none
  paramsOnly := false
  params := []
  headers := []
  base64Encoded := false
  auth := .noAuth

def cfgC3 : Config where
  auth := none
  lambdas := [("/*", lamNamed "A"), ("/*/param2", lamNamed "B"),
              ("/*/param2/param3", lamNamed "C"), ("/*/*/param3", lamNamed "D")]
  cacheConfigured := false
  cachePfx := ""

def cfgC3star : Config :=
  { cfgC3 with lambdas := cfgC3.lambdas ++ [("*", lamNamed "W")] }

def argsC3 : Args where
  body := .obj []
  hasExtension := false
  headers := [("host", .str "http://localhost")]
  host := "http://localhost"
  method := "GET"
  params := []
  root := "/x"
  urlPath := "/x/param2"
  pathname := "/x/param2"
  urlQuery := none
  uri := "/x/param2"

/-- C1 fixtures: gateway auth with a literal secret, a route requiring
authentication (`auth: true`), a token-free GET /a, and the same request
carrying a bad `params.token`. -/
def gwC1 : GwAuth where
  getTokenIsFn := false
  getSecret := .lit (.str "S")
  allowedFields := []

def lamAuthTrue : Lambda where
  name := "a"
  version := none
  paramsOnly := false
  params := []
  headers := []
  base64Encoded := false
  auth := .authTrue

def cfgC1 : Config where
  auth := some gwC1
  lambdas := [("/a", lamAuthTrue)]
  cacheConfigured := false
  cachePfx := ""

def argsC1 : Args where
  body := .obj []
  hasExtension := false
  headers := [("host", .str "http://localhost")]
  host := "http://localhost"
  method := "GET"
  params := []
  root := "/a"
  urlPath := "/a"
  pathname := "/a"
  urlQuery := none
  uri := "/a"

def argsC1tok : Args := { argsC1 with params := [("token", .str "bad")] }

end Gateway

namespace GatewayNext

open JS

/-- C4 fixture on the newest revision: a per-route token resolver reading
`params.token`. -/
def tokC4 : JSObj → JSObj → JSVal :=
  fun params _ => (JS.objGet params "token").getD .nullV

def lamC4 : LambdaN where
  name := "fn"
  auth := .spec
    { allowedFields := ["user"]
      token := .fn tokC4
      secret := .lit (.str "S")
      requiredRoles := none }

def reqC4 : ReqArgsN where
  params := [("token", .str "someToken")]
  headers := []

end GatewayNext

namespace Gateway

open JS List

theorem collapse_ne_nil : ∀ cs : List Char, cs ≠ [] → collapseSlashes cs ≠ [] := by
  intro cs
  induction cs with
  | nil => simp
  | cons a t ih =>
    intro _
    cases t with
    | nil => simp [collapseSlashes]
    | cons b r =>
      by_cases hab : a = '/' ∧ b = '/'
      · simpa [collapseSlashes, hab] using ih (by simp)
      · simp [collapseSlashes, hab]

theorem collapse_cons : ∀ (t : List Char) (a : Char), ∃ ys, collapseSlashes (a :: t) = a :: ys := by
  intro t
  induction t with
  | nil => exact fun a => ⟨[], rfl⟩
  | cons b r ih =>
    intro a
    by_cases hab : a = '/' ∧ b = '/'
    · obtain ⟨ys, hy⟩ := ih b
      exact ⟨ys, by rw [collapseSlashes, if_pos hab, hy, hab.1, hab.2]⟩
    · exact ⟨collapseSlashes (b :: r), by rw [collapseSlashes, if_neg hab]⟩

theorem getLast?_cons_ne_nil {a : Char} {xs : List Char} (h : xs ≠ []) :
    (a :: xs).getLast? = xs.getLast? := by
  cases xs with
  | nil => exact absurd rfl h
  | cons b r => exact List.getLast?_cons_cons

theorem collapse_getLast? : ∀ cs : List Char, (collapseSlashes cs).getLast? = cs.getLast? := by
  intro cs
  induction cs with
  | nil => rfl
  | cons a t ih =>
    cases t with
    | nil => rfl
    | cons b r =>
      by_cases hab : a = '/' ∧ b = '/'
      · rw [collapseSlashes, if_pos hab, ih, List.getLast?_cons_cons]
      · rw [collapseSlashes, if_neg hab,
          getLast?_cons_ne_nil (collapse_ne_nil (b :: r) (by simp)), ih,
          List.getLast?_cons_cons]

theorem collapse_chain : ∀ cs : List Char, List.Chain' NoDbl (collapseSlashes cs) := by
  intro cs
  induction cs with
  | nil => exact List.chain'_nil
  | cons a t ih =>
    cases t with
    | nil => simp [collapseSlashes]
    | cons b r =>
      by_cases hab : a = '/' ∧ b = '/'
      · rw [collapseSlashes, if_pos hab]; exact ih
      · rw [collapseSlashes, if_neg hab]
        rw [List.chain'_cons']
        refine ⟨?_, ih⟩
        intro y hy
        obtain ⟨ys, hys⟩ := collapse_cons r b
        rw [hys] at hy
        simp at hy
        subst hy
        exact hab

theorem collapse_eq_self : ∀ cs : List Char, List.Chain' NoDbl cs → collapseSlashes cs = cs := by
  intro cs
  induction cs with
  | nil => intro _; rfl
  | cons a t ih =>
    intro h
    cases t with
    | nil => rfl
    | cons b r =>
      rw [List.chain'_cons] at h
      rw [collapseSlashes, if_neg h.1, ih h.2]

theorem head?_dropWhile_not {p : Char → Bool} :
    ∀ l : List Char, ∀ c, (l.dropWhile p).head? = some c → p c = false := by
  intro l
  induction l with
  | nil => intro c h; simp [List.dropWhile] at h
  | cons a t ih =>
    intro c h
    by_cases hp : p a
    · rw [List.dropWhile_cons_of_pos hp] at h
      exact ih c h
    · rw [List.dropWhile_cons_of_neg hp] at h
      simp at h
      subst h
      exact Bool.eq_false_iff.mpr hp

theorem strip_getLast? : ∀ (cs : List Char) (c : Char),
    (stripTrailingSlashes cs).getLast? = some c → c ≠ '/' := by
  intro cs c h
  rw [stripTrailingSlashes, List.getLast?_reverse] at h
  have := head?_dropWhile_not (cs.reverse) c h
  simpa using this

theorem strip_eq_self : ∀ cs : List Char, (∀ c, cs.getLast? = some c → c ≠ '/') →
    stripTrailingSlashes cs = cs := by
  intro cs h
  rw [stripTrailingSlashes]
  cases hrev : cs.reverse with
  | nil =>
    have : cs = [] := by simpa using congrArg List.reverse hrev
    simp [this]
  | cons a t =>
    have ha : cs.getLast? = some a := by
      rw [← List.head?_reverse, hrev]; rfl
    have : ¬ (a = '/') := h a ha
    rw [List.dropWhile_cons_of_neg (by simpa using this), ← hrev, List.reverse_reverse]

theorem strip_prefix : ∀ cs : List Char, stripTrailingSlashes cs <+: cs := by
  intro cs
  have h1 : (stripTrailingSlashes cs).reverse <:+ cs.reverse := by
    rw [stripTrailingSlashes, List.reverse_reverse]
    exact List.dropWhile_suffix _
  exact List.reverse_suffix.mp h1

theorem prefix_head {l₁ l₂ : List Char} (h : l₁ <+: l₂) (hne : l₁ ≠ []) :
    l₂.head? = l₁.head? := by
  obtain ⟨t, ht⟩ := h
  cases l₁ with
  | nil => exact absurd rfl hne
  | cons a r => rw [← ht]; rfl

theorem mkOfNeNil {m : List Char} (h : m ≠ []) :
    (if m.isEmpty then "/" else String.mk m) = String.mk m := by
  cases m with
  | nil => exact absurd rfl h
  | cons a t => rfl

theorem parseUri_shape (p : String) :
    parseUri p = "/" ∨
      ∃ m : List Char, parseUri p = String.mk m ∧ m ≠ [] ∧ m.head? = some '/' ∧
        List.Chain' NoDbl m ∧ ∀ c, m.getLast? = some c → c ≠ '/' := by
  by_cases hl : stripTrailingSlashes ('/' :: p.data) = []
  · left
    rw [parseUri, hl]
    rfl
  · right
    refine ⟨collapseSlashes (stripTrailingSlashes ('/' :: p.data)), ?_, ?_, ?_, ?_, ?_⟩
    · rw [parseUri]
      exact mkOfNeNil (collapse_ne_nil _ hl)
    · exact collapse_ne_nil _ hl
    · have hpre := strip_prefix ('/' :: p.data)
      have hhead := prefix_head hpre hl
      have hsh : (stripTrailingSlashes ('/' :: p.data)).head? = some '/' := by
        rw [← hhead]; rfl
      cases hst : stripTrailingSlashes ('/' :: p.data) with
      | nil => exact absurd hst hl
      | cons a t =>
        rw [hst] at hsh
        simp at hsh
        obtain ⟨ys, hys⟩ := collapse_cons t a
        rw [hys, hsh]
        rfl
    · exact collapse_chain _
    · intro c h
      rw [collapse_getLast?] at h
      exact strip_getLast? _ c h

theorem parseUri_fixed (m : List Char) (hne : m ≠ []) (hhead : m.head? = some '/')
    (hch : List.Chain' NoDbl m) (hlast : ∀ c, m.getLast? = some c → c ≠ '/') :
    parseUri (String.mk m) = String.mk m := by
  have hdata : (String.mk m).data = m := rfl
  rw [parseUri, hdata]
  have hstrip : stripTrailingSlashes ('/' :: m) = '/' :: m := by
    apply strip_eq_self
    intro c h
    rw [getLast?_cons_ne_nil hne] at h
    exact hlast c h
  rw [hstrip]
  cases m with
  | nil => exact absurd rfl hne
  | cons a t =>
    simp at hhead
    subst hhead
    have hcol : collapseSlashes ('/' :: '/' :: t) = collapseSlashes ('/' :: t) := by
      rw [collapseSlashes, if_pos ⟨rfl, rfl⟩]
    rw [hcol, collapse_eq_self _ hch]
    rfl

theorem chain'_no_double {l : List Char} (h : List.Chain' NoDbl l) :
    ¬ ['/', '/'] <:+: l := by
  rintro ⟨s, t, hst⟩
  rw [← hst, List.append_assoc] at h
  have h2 := (List.chain'_append.mp h).2.1
  simp only [List.cons_append, List.nil_append] at h2
  rw [List.chain'_cons] at h2
  exact h2.1 ⟨rfl, rfl⟩

end Gateway

/-- C9: URI normalization (`parseUri`) is idempotent, sends the empty
string and the root to the root, and produces no `//` and no trailing
slash except at the root itself. -/
theorem c9_parseUri_normalization :
    (∀ p : String, Gateway.parseUri (Gateway.parseUri p) = Gateway.parseUri p)
    ∧ Gateway.parseUri "" = "/"
    ∧ Gateway.parseUri "/" = "/"
    ∧ (∀ p : String, ¬ ['/', '/'] <:+: (Gateway.parseUri p).data)
    ∧ (∀ p : String, (Gateway.parseUri p).data.getLast? = some '/' →
        Gateway.parseUri p = "/") := by
  refine ⟨?_, by decide, by decide, ?_, ?_⟩
  · intro p
    rcases Gateway.parseUri_shape p with h | ⟨m, hm, hne, hhead, hch, hlast⟩
    · rw [h]; decide
    · rw [hm]; exact Gateway.parseUri_fixed m hne hhead hch hlast
  · intro p
    rcases Gateway.parseUri_shape p with h | ⟨m, hm, hne, hhead, hch, hlast⟩
    · rw [h]
      rintro ⟨s, t, hst⟩
      have := congrArg List.length hst
      simp [String.data] at this
      omega
    · rw [hm]
      exact Gateway.chain'_no_double hch
  · intro p h
    rcases Gateway.parseUri_shape p with hr | ⟨m, hm, hne, hhead, hch, hlast⟩
    · exact hr
    · rw [hm] at h
      exact absurd rfl (hlast '/' h)

/-- C9 witness: idempotence evaluated on a concrete messy path, and the
trailing-slash conjunct discharged at `//`. -/
theorem c9_parseUri_normalization_witness :
    Gateway.parseUri (Gateway.parseUri "/a//b///") = Gateway.parseUri "/a//b///"
    ∧ Gateway.parseUri "//" = "/" :=
  ⟨c9_parseUri_normalization.1 "/a//b///",
   c9_parseUri_normalization.2.2.2.2 "//" (by decide)⟩

/-- C8 counterexample: `parseValue` does raise — a lone percent sign makes
`decodeURIComponent` throw `URIError` and there is no fallback to the
original string; and a string with a numeric prefix is not URL-decoded but
coerced by `parseFloat`. -/
theorem c8_parseValue_raises :
    Gateway.parseValue (.str "%") = .error .uriError
    ∧ Gateway.parseValue (.str "12abc") = .ok (.num 12 0) := by
  decide

/-- C8 (amended): `parseValue` is total on every input except a string
whose percent-decoding fails; the boolean-ish strings and values coerce to
booleans, the null-ish ones to null, a string `parseFloat` accepts (one
with a numeric prefix) coerces to that number, every other string is
URL-decoded, and a malformed percent-encoding yields `URIError` rather
than the original string. -/
theorem c8_parseValue_branches :
    (Gateway.parseValue (.str "true") = .ok (.boolV true)
      ∧ Gateway.parseValue (.boolV true) = .ok (.boolV true))
    ∧ (Gateway.parseValue (.str "false") = .ok (.boolV false)
      ∧ Gateway.parseValue (.boolV false) = .ok (.boolV false))
    ∧ (Gateway.parseValue (.str "null") = .ok .nullV
      ∧ Gateway.parseValue (.str "undefined") = .ok .nullV
      ∧ Gateway.parseValue .nullV = .ok .nullV
      ∧ Gateway.parseValue .undef = .ok .nullV)
    ∧ (∀ s n, s ≠ "true" → s ≠ "false" → s ≠ "null" → s ≠ "undefined" →
        JS.parseFloatChars s.data = some n →
        Gateway.parseValue (.str s) = .ok n)
    ∧ (∀ s d, s ≠ "true" → s ≠ "false" → s ≠ "null" → s ≠ "undefined" →
        JS.parseFloatChars s.data = none → JS.decodeURIComponentJS s = some d →
        Gateway.parseValue (.str s) = .ok (.str d))
    ∧ (∀ s, s ≠ "true" → s ≠ "false" → s ≠ "null" → s ≠ "undefined" →
        JS.parseFloatChars s.data = none → JS.decodeURIComponentJS s = none →
        Gateway.parseValue (.str s) = .error .uriError)
    ∧ (∀ v : JS.JSVal, (∃ r, Gateway.parseValue v = .ok r)
        ∨ ∃ s, v = .str s ∧ JS.decodeURIComponentJS s = none) := by
  refine ⟨by decide, by decide, by decide, ?_, ?_, ?_, ?_⟩
  · intro s n h1 h2 h3 h4 hf
    simp only [Gateway.parseValue, if_neg h1, if_neg h2,
      if_neg (show ¬ (s = "null" ∨ s = "undefined") by simp [h3, h4]), hf]
  · intro s d h1 h2 h3 h4 hf hd
    simp only [Gateway.parseValue, if_neg h1, if_neg h2,
      if_neg (show ¬ (s = "null" ∨ s = "undefined") by simp [h3, h4]), hf, hd]
  · intro s h1 h2 h3 h4 hf hd
    simp only [Gateway.parseValue, if_neg h1, if_neg h2,
      if_neg (show ¬ (s = "null" ∨ s = "undefined") by simp [h3, h4]), hf, hd]
  · intro v
    cases v with
    | str s =>
      by_cases h1 : s = "true"
      · exact .inl ⟨.boolV true, by simp [Gateway.parseValue, h1]⟩
      by_cases h2 : s = "false"
      · exact .inl ⟨.boolV false, by simp [Gateway.parseValue, h1, h2]⟩
      by_cases h3 : s = "null"
      · exact .inl ⟨.nullV, by simp [Gateway.parseValue, h1, h2, h3]⟩
      by_cases h4 : s = "undefined"
      · exact .inl ⟨.nullV, by simp [Gateway.parseValue, h1, h2, h3, h4]⟩
      cases hf : JS.parseFloatChars s.data with
      | some n =>
        exact .inl ⟨n, by
          simp only [Gateway.parseValue, if_neg h1, if_neg h2,
            if_neg (show ¬ (s = "null" ∨ s = "undefined") by simp [h3, h4]), hf]⟩
      | none =>
        cases hd : JS.decodeURIComponentJS s with
        | some d =>
          exact .inl ⟨.str d, by
            simp only [Gateway.parseValue, if_neg h1, if_neg h2,
              if_neg (show ¬ (s = "null" ∨ s = "undefined") by simp [h3, h4]), hf, hd]⟩
        | none => exact .inr ⟨s, rfl, hd⟩
    | num m e => exact .inl ⟨.num m e, rfl⟩
    | inf p => exact .inl ⟨.inf p, rfl⟩
    | boolV b => exact .inl ⟨.boolV b, by cases b <;> rfl⟩
    | nullV => exact .inl ⟨.nullV, rfl⟩
    | undef => exact .inl ⟨.nullV, rfl⟩
    | obj fs => exact .inl ⟨.str "[object Object]", rfl⟩

/-- C8 witness: the numeric, decoded and raising branches discharged on
concrete strings. -/
theorem c8_parseValue_branches_witness :
    Gateway.parseValue (.str "6") = .ok (.num 6 0)
    ∧ Gateway.parseValue (.str "a%20b") = .ok (.str "a b") :=
  ⟨c8_parseValue_branches.2.2.2.1 "6" (.num 6 0)
      (by decide) (by decide) (by decide) (by decide) (by decide),
   c8_parseValue_branches.2.2.2.2.1 "a%20b" "a b"
      (by decide) (by decide) (by decide) (by decide) (by decide) (by decide)⟩

namespace JS

theorem objGet_objSet (o : JSObj) (k : String) (v : JSVal) (k2 : String) :
    objGet (objSet o k v) k2 = if k = k2 then some v else objGet o k2 := by
  induction o with
  | nil => rfl
  | cons kv rest ih =>
    obtain ⟨k0, v0⟩ := kv
    by_cases h0 : k0 = k
    · subst h0
      rw [objSet, if_pos rfl]
      by_cases h2 : k0 = k2
      · subst h2; simp [objGet]
      · simp [objGet, h2]
    · rw [objSet, if_neg h0]
      by_cases h2 : k0 = k2
      · subst h2
        have hk2 : ¬ k = k0 := fun h => h0 h.symm
        simp [objGet, if_neg hk2]
      · simp [objGet, h2, ih]

theorem objGet_eq_none_of_not_mem (o : JSObj) (k : String)
    (h : k ∉ o.map Prod.fst) : objGet o k = none := by
  induction o with
  | nil => rfl
  | cons kv rest ih =>
    simp at h
    rw [objGet, if_neg (fun he => h.1 he.symm)]
    exact ih (by simpa using h.2)

theorem objGet_objAssign (b : JSObj) :
    ∀ (a : JSObj) (k : String), (b.map Prod.fst).Nodup →
      objGet (objAssign a b) k =
        match objGet b k with
        | some v => some v
        | none => objGet a k := by
  induction b with
  | nil => intro a k _; rfl
  | cons kv b2 ih =>
    intro a k hnd
    obtain ⟨kb, vb⟩ := kv
    simp only [List.map_cons, List.nodup_cons] at hnd
    have hstep : objAssign a ((kb, vb) :: b2) = objAssign (objSet a kb vb) b2 := rfl
    rw [hstep, ih (objSet a kb vb) k hnd.2]
    by_cases hk : kb = k
    · subst hk
      have hb2 : objGet b2 kb = none :=
        objGet_eq_none_of_not_mem b2 kb hnd.1
      rw [hb2]
      simp [objGet, objGet_objSet]
    · simp only [objGet, if_neg hk]
      cases objGet b2 k with
      | some v => rfl
      | none => simp [objGet_objSet, hk]

end JS

/-- C5: under `paramsOnly` the invoker payload is exactly the merge of the
route's configured default request parameters under the client params —
the client value winning on every colliding key and the defaults filling
the rest — and in the pinned scenario defaults width 200 / height 200 with
query `width=10` merge to width 10, height 200; without `paramsOnly` the
payload is the full envelope (method, headers, body, merged params, uri). -/
theorem c5_paramsOnly_payload :
    (∀ (lam : Gateway.Lambda) (args : Gateway.Args), lam.paramsOnly = true →
      Gateway.lambdaPayload lam args = .obj (JS.objAssign lam.params args.params))
    ∧ (∀ (lam : Gateway.Lambda) (args : Gateway.Args) (k : String) (v : JS.JSVal),
        (args.params.map Prod.fst).Nodup →
        JS.objGet args.params k = some v →
        JS.objGet (JS.objAssign lam.params args.params) k = some v)
    ∧ (∀ (lam : Gateway.Lambda) (args : Gateway.Args) (k : String),
        (args.params.map Prod.fst).Nodup →
        JS.objGet args.params k = none →
        JS.objGet (JS.objAssign lam.params args.params) k = JS.objGet lam.params k)
    ∧ JS.objAssign Gateway.lamC5.params Gateway.argsC5.params =
        [("width", .num 10 0), ("height", .num 200 0)]
    ∧ Gateway.qs (some "width=10") = .ok [("width", .num 10 0)]
    ∧ (∀ (lam : Gateway.Lambda) (args : Gateway.Args), lam.paramsOnly = false →
        Gateway.lambdaPayload lam args =
          .obj [("method", .str args.method), ("headers", .obj args.headers),
                ("body", args.body),
                ("params", .obj (JS.objAssign lam.params args.params)),
                ("uri", .str args.uri)]) := by
  refine ⟨?_, ?_, ?_, by decide, by decide, ?_⟩
  · intro lam args h
    simp [Gateway.lambdaPayload, h]
  · intro lam args k v hnd hget
    rw [JS.objGet_objAssign args.params lam.params k hnd, hget]
  · intro lam args k hnd hget
    rw [JS.objGet_objAssign args.params lam.params k hnd, hget]
  · intro lam args h
    simp [Gateway.lambdaPayload, h]

/-- C5 witness: the merge conjuncts discharged on the pinned scenario. -/
theorem c5_paramsOnly_payload_witness :
    Gateway.lambdaPayload Gateway.lamC5 Gateway.argsC5 =
      .obj (JS.objAssign Gateway.lamC5.params Gateway.argsC5.params)
    ∧ JS.objGet (JS.objAssign Gateway.lamC5.params Gateway.argsC5.params) "width" =
        some (.num 10 0)
    ∧ JS.objGet (JS.objAssign Gateway.lamC5.params Gateway.argsC5.params) "height" =
        JS.objGet Gateway.lamC5.params "height" :=
  ⟨c5_paramsOnly_payload.1 Gateway.lamC5 Gateway.argsC5 rfl,
   c5_paramsOnly_payload.2.1 Gateway.lamC5 Gateway.argsC5 "width" (.num 10 0)
     (by decide) (by decide),
   c5_paramsOnly_payload.2.2.1 Gateway.lamC5 Gateway.argsC5 "height"
     (by decide) (by decide)⟩

/-- C6: the cache is consulted only when a cache store is configured and
the cache-enabled predicate is truthy on the request args; an eligible
lookup uses namespace `args.host` and key `cachePrefix ++ computedKey`;
and when the computed key is not a string the request behaves exactly as
with no cache store: the invoker is called directly. -/
theorem c6_cache_consultation :
    (∀ (cc : Bool) (sc gck : Gateway.Args → JS.JSVal) (pfx : String)
        (args : Gateway.Args) (ns key : String),
      Gateway.cacheRoute cc sc gck pfx args = .viaCache ns key →
        cc = true ∧ JS.truthy (sc args) = true ∧
          ∃ s, gck args = .str s ∧ ns = args.host ∧ key = pfx ++ s)
    ∧ (∀ (sc gck : Gateway.Args → JS.JSVal) (pfx : String) (args : Gateway.Args)
        (s : String),
      JS.truthy (sc args) = true → gck args = .str s →
        Gateway.cacheRoute true sc gck pfx args = .viaCache args.host (pfx ++ s))
    ∧ (∀ (sc gck : Gateway.Args → JS.JSVal) (pfx : String) (args : Gateway.Args),
      Gateway.cacheRoute false sc gck pfx args = .direct)
    ∧ (∀ (o : Gateway.Oracles) (pfx : String) (lam : Gateway.Lambda)
        (args : Gateway.Args),
      (∀ s, o.getCacheKey args ≠ .str s) →
        Gateway.callLambda o true pfx lam args =
          Gateway.callLambda o false pfx lam args) := by
  refine ⟨?_, ?_, ?_, ?_⟩
  · intro cc sc gck pfx args ns key h
    rw [Gateway.cacheRoute] at h
    by_cases hcond : cc = true ∧ JS.truthy (sc args) = true
    · refine ⟨hcond.1, hcond.2, ?_⟩
      rw [if_pos (by simpa using hcond)] at h
      cases hg : gck args with
      | str s =>
        rw [hg] at h
        exact ⟨s, rfl, by cases h; exact ⟨rfl, rfl⟩⟩
      | num m e => rw [hg] at h; cases h
      | inf p => rw [hg] at h; cases h
      | boolV b => rw [hg] at h; cases h
      | nullV => rw [hg] at h; cases h
      | undef => rw [hg] at h; cases h
      | obj fs => rw [hg] at h; cases h
    · rw [if_neg (by simpa using hcond)] at h
      cases h
  · intro sc gck pfx args s hsc hg
    rw [Gateway.cacheRoute, if_pos (by simp [hsc]), hg]
  · intro sc gck pfx args
    rw [Gateway.cacheRoute, if_neg (by simp)]
  · intro o pfx lam args hkey
    rw [Gateway.callLambda, Gateway.callLambda]
    have hroute : Gateway.cacheRoute true o.shouldCache o.getCacheKey pfx args =
        .direct := by
      rw [Gateway.cacheRoute]
      by_cases hsc : JS.truthy (o.shouldCache args) = true
      · rw [if_pos (by simp [hsc])]
        cases hg : o.getCacheKey args with
        | str s => exact absurd hg (hkey s)
        | num m e => rfl
        | inf p => rfl
        | boolV b => rfl
        | nullV => rfl
        | undef => rfl
        | obj fs => rfl
      · rw [if_neg (by simpa using hsc)]
    rw [hroute, Gateway.cacheRoute, if_neg (by simp)]

/-- C6 witness: eligibility and key construction evaluated concretely. -/
theorem c6_cache_consultation_witness :
    Gateway.cacheRoute true Gateway.oFix.shouldCache Gateway.oFix.getCacheKey
        "cachePrefix_" Gateway.argsC5 =
      .viaCache Gateway.argsC5.host ("cachePrefix_" ++ "/img")
    ∧ Gateway.callLambda Gateway.oFixKeyless true "p"
        { Gateway.lamC5 with paramsOnly := false } Gateway.argsC5 =
      Gateway.callLambda Gateway.oFixKeyless false "p"
        { Gateway.lamC5 with paramsOnly := false } Gateway.argsC5 := by
  refine ⟨c6_cache_consultation.2.1 _ _ _ _ "/img" (by decide) (by decide), ?_⟩
  exact c6_cache_consultation.2.2.2 Gateway.oFixKeyless "p"
    { Gateway.lamC5 with paramsOnly := false } Gateway.argsC5
    (fun s h => by simp [Gateway.oFixKeyless] at h)

/-- C4: in src/index.js a function-valued resolver never completes — the
call sites pass the undeclared identifier `context` as an extra argument,
so evaluating the argument list raises `ReferenceError` whether the
function is `getToken` (immediately) or `getSecret` (once a token is
present); the newest revision, by contrast, calls its token resolver with
exactly (params, headers) and proceeds. -/
theorem c4_resolver_reference_error :
    Gateway.handleAuth Gateway.decodeFix (some Gateway.gC4token) Gateway.argsC4 =
      .error (.referenceError "context")
    ∧ Gateway.handleAuth Gateway.decodeFix (some Gateway.gC4secret) Gateway.argsC4 =
      .error (.referenceError "context")
    ∧ GatewayNext.handleAuthN Gateway.decodeFix (some GatewayNext.lamC4) GatewayNext.reqC4 =
      .chain (.str "someToken") (.str "S") ["user"] none GatewayNext.reqC4 := by
  decide

/-- C7 counterexample: with no cache driver a POST /cache request is not
answered 404 — the gateway responds 200, echoing the parsed request body
(and the request headers as response headers). -/
theorem c7_cache_admin_no_driver_counterexample :
    Gateway.handle Gateway.cfgC7 Gateway.oFix Gateway.argsC7 =
      .resp 200 (.obj [("operation", .str "unset")])
        [("host", .str "http://localhost")] false
    ∧ Gateway.statusOf (Gateway.handle Gateway.cfgC7 Gateway.oFix Gateway.argsC7) ≠ 404 := by
  decide

/-- C7 (amended): when no cache store is configured, a POST /cache request
skips the cache branch and flows through the auth-only pipeline; with no
gateway auth and no matching route it is answered 200 with the parsed
request body echoed (`Not Found` is produced only for non-cache requests
with no route). -/
theorem c7_cache_admin_no_driver :
    ∀ (cfg : Gateway.Config) (o : Gateway.Oracles) (args : Gateway.Args),
      cfg.cacheConfigured = false →
      cfg.auth = none →
      Gateway.routeOf cfg args = none →
      args.method = "POST" → args.pathname = "/cache" →
      JS.truthy args.body = true →
      Gateway.handle cfg o args = .resp 200 args.body args.headers false := by
  intro cfg o args hcc hauth hroute hm hp htb
  simp only [Gateway.handle, hauth, Gateway.handleAuth]
  rw [if_pos ⟨hm, hp⟩]
  rw [if_neg (by simp [hcc])]
  rw [show Gateway.authPipeline cfg o (Gateway.routeOf cfg args) (.pure args) =
        .ok args by
      rw [Gateway.authPipeline, Gateway.runAuthObs, hroute]
      rfl]
  simp only [Gateway.subscribeOp]
  rw [show JS.getField (Gateway.argsToJS args) "body" = some args.body from rfl]
  rw [show JS.getField (Gateway.argsToJS args) "headers" = some (.obj args.headers) from rfl]
  rw [show JS.getField (Gateway.argsToJS args) "base64Encoded" = none from rfl]
  rw [show JS.getField (Gateway.argsToJS args) "statusCode" = none from rfl]
  simp [Gateway.jsGE, htb]

/-- C7 amended witness: the general statement discharged on the concrete
no-driver fixture. -/
theorem c7_cache_admin_no_driver_witness :
    Gateway.handle Gateway.cfgC7 Gateway.oFix Gateway.argsC7 =
      .resp 200 Gateway.argsC7.body Gateway.argsC7.headers false :=
  c7_cache_admin_no_driver Gateway.cfgC7 Gateway.oFix Gateway.argsC7
    rfl rfl rfl rfl rfl rfl

namespace Gateway

theorem handle_of_authError {cfg : Config} {o : Oracles} {args : Args} {e : JS.JSErr}
    (h : handleAuth o.decode cfg.auth args = .error e) :
    handle cfg o args = .errResp 500 (.str (errMessageOf e)) := by
  rw [handle]
  split
  case _ e2 heq =>
    rw [heq] at h
    injection h with h
    rw [h]
  case _ obs heq =>
    rw [heq] at h
    cases h

theorem handle_cacheAdmin {cfg : Config} {o : Oracles} {args : Args} {obs : AuthObs}
    (hobs : handleAuth o.decode cfg.auth args = .ok obs)
    (hm : args.method = "POST") (hp : args.pathname = "/cache")
    (hcc : cfg.cacheConfigured = true)
    (hop : cacheOpField args.body = .str "markToRefresh"
      ∨ cacheOpField args.body = .str "unset") :
    handle cfg o args = cacheAdminResult o args := by
  rw [handle]
  split
  case _ e heq =>
    rw [heq] at hobs
    cases hobs
  case _ obs2 heq =>
    rw [if_pos ⟨hm, hp⟩]
    rw [if_pos ⟨hcc, hop⟩]

theorem handleAuth_ok_of_lit {decode : JS.JSVal → Option JS.JSObj} {g : GwAuth}
    {args : Args} {sv : JS.JSVal}
    (htok : g.getTokenIsFn = false) (hsv : g.getSecret = .lit sv) :
    ∃ obs, handleAuth decode (some g) args = .ok obs := by
  rw [handleAuth]
  rw [if_neg (by simp [htok])]
  by_cases ht : JS.truthy (jsOr ((JS.objGet args.headers "authorization").getD .undef)
      (jsOr ((JS.objGet args.params "token").getD .undef) .nullV)) = true
  · rw [if_pos ht, hsv]
    exact ⟨_, rfl⟩
  · rw [if_neg ht]
    exact ⟨_, rfl⟩

end Gateway

/-- C10: a cache-admin request (POST /cache with a configured store and a
markToRefresh/unset operation) is answered without subscribing to JWT
verification or the role gate: provided the configured secret resolver is
not a function, the response is the same whatever token the request
carries and whatever the verifier would say — the verification, decode,
invoker and cache-read oracles may all differ between the two runs, and
the route table may declare required roles. -/
theorem c10_cache_admin_ignores_auth :
    ∀ (cfg : Gateway.Config) (o1 o2 : Gateway.Oracles) (a1 a2 : Gateway.Args),
      cfg.cacheConfigured = true →
      (∀ g, cfg.auth = some g → g.getSecret ≠ .fn) →
      a1.method = "POST" → a1.pathname = "/cache" →
      a2.method = "POST" → a2.pathname = "/cache" →
      a1.body = a2.body → a1.host = a2.host →
      o1.cacheOp = o2.cacheOp →
      (Gateway.cacheOpField a1.body = .str "markToRefresh"
        ∨ Gateway.cacheOpField a1.body = .str "unset") →
      Gateway.handle cfg o1 a1 = Gateway.handle cfg o2 a2 := by
  intro cfg o1 o2 a1 a2 hcc hsec hm1 hp1 hm2 hp2 hbody hhost hcop hop
  have hop2 : Gateway.cacheOpField a2.body = .str "markToRefresh"
      ∨ Gateway.cacheOpField a2.body = .str "unset" := by rw [← hbody]; exact hop
  have hadmin : Gateway.cacheAdminResult o1 a1 = Gateway.cacheAdminResult o2 a2 := by
    rw [Gateway.cacheAdminResult, Gateway.cacheAdminResult, hbody, hhost, hcop]
  cases hauth : cfg.auth with
  | none =>
    have h1 : Gateway.handleAuth o1.decode cfg.auth a1 = .ok (.pure a1) := by
      rw [hauth]; rfl
    have h2 : Gateway.handleAuth o2.decode cfg.auth a2 = .ok (.pure a2) := by
      rw [hauth]; rfl
    rw [Gateway.handle_cacheAdmin h1 hm1 hp1 hcc hop,
      Gateway.handle_cacheAdmin h2 hm2 hp2 hcc hop2]
    exact hadmin
  | some g =>
    cases htok : g.getTokenIsFn with
    | true =>
      have h1 : Gateway.handleAuth o1.decode cfg.auth a1 =
          .error (.referenceError "context") := by
        rw [hauth, Gateway.handleAuth, if_pos htok]
      have h2 : Gateway.handleAuth o2.decode cfg.auth a2 =
          .error (.referenceError "context") := by
        rw [hauth, Gateway.handleAuth, if_pos htok]
      rw [Gateway.handle_of_authError h1, Gateway.handle_of_authError h2]
    | false =>
      cases hsv : g.getSecret with
      | fn => exact absurd hsv (hsec g hauth)
      | lit sv =>
        obtain ⟨obs1, h1⟩ :=
          @Gateway.handleAuth_ok_of_lit o1.decode g a1 _ htok hsv
        obtain ⟨obs2, h2⟩ :=
          @Gateway.handleAuth_ok_of_lit o2.decode g a2 _ htok hsv
        rw [Gateway.handle_cacheAdmin (by rw [hauth]; exact h1) hm1 hp1 hcc hop,
          Gateway.handle_cacheAdmin (by rw [hauth]; exact h2) hm2 hp2 hcc hop2]
        exact hadmin

/-- C10 witness: two runs differing in token and verifier produce the same
response on a concrete cache-admin request. -/
theorem c10_cache_admin_ignores_auth_witness :
    Gateway.handle { Gateway.cfgC7 with cacheConfigured := true } Gateway.oFix
        Gateway.argsC7 =
      Gateway.handle { Gateway.cfgC7 with cacheConfigured := true }
        { Gateway.oFix with verify := fun _ _ => .ok [("role", .str "admin")] }
        { Gateway.argsC7 with params := [("token", .str "whatever")] } :=
  c10_cache_admin_ignores_auth _ _ _ _ _ rfl (fun g hg => by cases hg) rfl rfl rfl rfl
    rfl rfl rfl (Or.inr rfl)

namespace Gateway

theorem handle_route_ok {cfg : Config} {o : Oracles} {args : Args} {l : Lambda}
    {obs : AuthObs}
    (hobs : handleAuth o.decode cfg.auth args = .ok obs)
    (hroute : routeOf cfg args = some l)
    (hnc : ¬ (args.method = "POST" ∧ args.pathname = "/cache")) :
    handle cfg o args =
      match authPipeline cfg o (some l) obs with
      | .error e => .errResp (e.statusCode.getD 500) e.message
      | .ok args2 =>
        match callLambda o cfg.cacheConfigured cfg.cachePfx l args2 with
        | .error m => .errResp 500 (.str m)
        | .ok shaped => subscribeOp (shapedToJS shaped) := by
  rw [handle]
  split
  case _ e heq =>
    rw [heq] at hobs
    cases hobs
  case _ obs2 heq =>
    rw [heq] at hobs
    injection hobs with hobs
    subst hobs
    rw [if_neg hnc, hroute]

theorem roleGate_ok_roles {l : Lambda} {args2 : Args} {rs : List String}
    (hl : l.auth = .authRoles rs)
    (h : roleGate (some l) args2 = .ok ()) :
    ∃ av r, JS.objGet args2.params "auth" = some av ∧
      JS.getField av "role" = some (.str r) ∧ r ∈ rs := by
  simp only [roleGate, hl] at h
  split at h
  case _ hc => cases h
  case _ hc =>
    rw [not_or] at hc
    have hro := not_not.mp (not_and.mp hc.2 rfl)
    split at hro
    case _ v heq =>
      split at hro
      case _ r heq2 => exact ⟨v, r, heq, heq2, of_decide_eq_true hro⟩
      case _ => cases hro
    case _ heq => cases hro

theorem roleGate_forbidden {l : Lambda} {args2 : Args} {rs : List String}
    (hl : l.auth = .authRoles rs)
    (hrole : ∀ av r, JS.objGet args2.params "auth" = some av →
      JS.getField av "role" = some (.str r) → r ∉ rs) :
    roleGate (some l) args2 = .error ⟨some 403, .str "Forbidden"⟩ := by
  simp only [roleGate, hl]
  split
  case _ hc => rfl
  case _ hc =>
    exfalso
    refine hc (Or.inr ⟨rfl, fun htrue => ?_⟩)
    split at htrue
    case _ v heq =>
      split at htrue
      case _ r heq2 => exact absurd (of_decide_eq_true htrue) (hrole v r heq heq2)
      case _ => cases htrue
    case _ heq => cases htrue

end Gateway

/-- C2: on a route whose auth configuration lists required roles
(`auth.roles` in src/index.js, `requiredRoles` in the specification), a
successful (non-error) response implies the authenticated `params.auth.role`
is one of them; and when the established role is outside the list the
request fails with 403 Forbidden for every invoker and cache oracle — the
lambda is never invoked. -/
theorem c2_role_gate :
    ∀ (cfg : Gateway.Config) (o : Gateway.Oracles) (args : Gateway.Args)
      (l : Gateway.Lambda) (rs : List String),
      Gateway.routeOf cfg args = some l →
      l.auth = .authRoles rs →
      ¬ (args.method = "POST" ∧ args.pathname = "/cache") →
      ((∀ st b hd b64, Gateway.handle cfg o args = .resp st b hd b64 →
          ∃ obs args2 av r,
            Gateway.handleAuth o.decode cfg.auth args = .ok obs ∧
            Gateway.runAuthObs o.verify
              ((cfg.auth.map Gateway.GwAuth.allowedFields).getD []) obs = .ok args2 ∧
            JS.objGet args2.params "auth" = some av ∧
            JS.getField av "role" = some (.str r) ∧ r ∈ rs)
       ∧ (∀ obs args2,
            Gateway.handleAuth o.decode cfg.auth args = .ok obs →
            Gateway.runAuthObs o.verify
              ((cfg.auth.map Gateway.GwAuth.allowedFields).getD []) obs = .ok args2 →
            (∀ av r, JS.objGet args2.params "auth" = some av →
              JS.getField av "role" = some (.str r) → r ∉ rs) →
            ∀ o2 : Gateway.Oracles, o2.verify = o.verify → o2.decode = o.decode →
              Gateway.handle cfg o2 args = .errResp 403 (.str "Forbidden"))) := by
  intro cfg o args l rs hroute hl hnc
  constructor
  · intro st b hd b64 hres
    cases hha : Gateway.handleAuth o.decode cfg.auth args with
    | error e =>
      rw [Gateway.handle_of_authError hha] at hres
      cases hres
    | ok obs =>
      rw [Gateway.handle_route_ok hha hroute hnc] at hres
      cases hap : Gateway.authPipeline cfg o (some l) obs with
      | error e => rw [hap] at hres; cases hres
      | ok args2 =>
        rw [Gateway.authPipeline] at hap
        split at hap
        case _ m heq => cases hap
        case _ args2x heq =>
          split at hap
          case _ e heq2 => cases hap
          case _ u heq2 =>
            injection hap with hap
            subst hap
            cases u
            obtain ⟨av, r, h1, h2, h3⟩ := Gateway.roleGate_ok_roles hl heq2
            exact ⟨obs, _, av, r, rfl, heq, h1, h2, h3⟩
  · intro obs args2 hha hra hrole o2 hver hdec
    have hha2 : Gateway.handleAuth o2.decode cfg.auth args = .ok obs := by
      rw [hdec]; exact hha
    rw [Gateway.handle_route_ok hha2 hroute hnc]
    have hap : Gateway.authPipeline cfg o2 (some l) obs =
        .error ⟨some 403, .str "Forbidden"⟩ := by
      rw [Gateway.authPipeline, hver, hra]
      simp only [Gateway.roleGate_forbidden hl hrole]
    rw [hap]
    rfl

/-- C2 witness: on the fixture route requiring role `admin`, a request whose
verified token carries role `user` is rejected 403 Forbidden. -/
theorem c2_role_gate_witness :
    Gateway.handle Gateway.cfgC2 Gateway.oC2 Gateway.argsC2 =
      .errResp 403 (.str "Forbidden") :=
  (c2_role_gate Gateway.cfgC2 Gateway.oC2 Gateway.argsC2 Gateway.lamC2 ["admin"]
      rfl rfl (by decide)).2
    Gateway.obsC2 Gateway.args2C2 rfl (by decide)
    (fun av r h1 h2 => by
      injection h1 with h1
      subst h1
      injection h2 with h2
      injection h2 with h2
      subst h2
      decide)
    Gateway.oC2 rfl rfl

/-- C1 counterexample: on the fixture route requiring authentication, a
request with no authorization header and no `params.token` is not answered
403 "jwt must be provided" — the program installs `params.auth =
{role: 'public'}` and the request succeeds with 200; and when a token is
present and verification fails, the propagated error carries no statusCode,
so the gateway writes 500, not 403. -/
theorem c1_auth_failure_403_counterexample :
    Gateway.handle Gateway.cfgC1 Gateway.oFix Gateway.argsC1 =
      .resp 200 (.obj []) [] false
    ∧ Gateway.handle Gateway.cfgC1 Gateway.oFix Gateway.argsC1tok =
      .errResp 500 (.str "invalid signature") := by
  constructor
  · decide
  · decide

/-- C1 amended: with gateway auth configured and `getToken` not a function,
a request carrying no truthy authorization header and no truthy
`params.token` is never rejected for the missing token — `handleAuth`
returns the pass-through observable installing `params.auth =
{role: 'public'}`; and when the subscribed verification of a routed
non-cache request fails with message `m`, the pipeline error carries no
statusCode, so the gateway responds 500 with `m`, not 403. -/
theorem c1_missing_token_public_role :
    (∀ (decode : JS.JSVal → Option JS.JSObj) (g : Gateway.GwAuth)
       (args : Gateway.Args),
       g.getTokenIsFn = false →
       ¬ JS.truthy ((JS.objGet args.headers "authorization").getD .undef) →
       ¬ JS.truthy ((JS.objGet args.params "token").getD .undef) →
       Gateway.handleAuth decode (some g) args =
         .ok (.pure { args with
           params := JS.objSet args.params "auth" (.obj [("role", .str "public")]) }))
  ∧ (∀ (cfg : Gateway.Config) (o : Gateway.Oracles) (args : Gateway.Args)
       (l : Gateway.Lambda) (obs : Gateway.AuthObs) (m : String),
       Gateway.routeOf cfg args = some l →
       ¬ (args.method = "POST" ∧ args.pathname = "/cache") →
       Gateway.handleAuth o.decode cfg.auth args = .ok obs →
       Gateway.runAuthObs o.verify
         ((cfg.auth.map Gateway.GwAuth.allowedFields).getD []) obs = .error m →
       Gateway.handle cfg o args = .errResp 500 (.str m)) := by
  constructor
  · intro decode g args htok hh hp
    have ha : Gateway.jsOr ((JS.objGet args.headers "authorization").getD .undef)
        (Gateway.jsOr ((JS.objGet args.params "token").getD .undef) .nullV) = .nullV := by
      rw [Gateway.jsOr, if_neg hh, Gateway.jsOr, if_neg hp]
    rw [Gateway.handleAuth, if_neg (by simp [htok]), ha, if_neg (by decide)]
  · intro cfg o args l obs m hroute hnc hha hra
    rw [Gateway.handle_route_ok hha hroute hnc]
    have hap : Gateway.authPipeline cfg o (some l) obs = .error ⟨none, .str m⟩ := by
      rw [Gateway.authPipeline, hra]
    rw [hap]
    rfl

/-- C1 amended witness: the token-free fixture request gets the public
role, and the bad-token fixture request is answered 500 "invalid
signature". -/
theorem c1_missing_token_public_role_witness :
    Gateway.handleAuth Gateway.oFix.decode (some Gateway.gwC1) Gateway.argsC1 =
      .ok (.pure { Gateway.argsC1 with
        params := JS.objSet Gateway.argsC1.params "auth" (.obj [("role", .str "public")]) })
    ∧ Gateway.handle Gateway.cfgC1 Gateway.oFix Gateway.argsC1tok =
      .errResp 500 (.str "invalid signature") :=
  ⟨c1_missing_token_public_role.1 Gateway.oFix.decode Gateway.gwC1 Gateway.argsC1
      rfl (by decide) (by decide),
   c1_missing_token_public_role.2 Gateway.cfgC1 Gateway.oFix Gateway.argsC1tok
      Gateway.lamAuthTrue (.verifyThen (.str "bad") (.str "S") Gateway.argsC1tok)
      "invalid signature" rfl (by decide) rfl rfl⟩

/-- C3 counterexample: route resolution in the program is
`lambdas[root] || lambdas['*']` (src/index.js:326) — no wildcard and no
longest-prefix matching.  With the claim's own table installed as keys,
GET /x/param2 (root `/x`) matches nothing: the resolver yields no route
and the gateway answers 404 Not Found, not the `/*/param2` route. -/
theorem c3_wildcard_routing_counterexample :
    Gateway.routeOf Gateway.cfgC3 Gateway.argsC3 = none
    ∧ Gateway.handle Gateway.cfgC3 Gateway.oFix Gateway.argsC3 =
      .errResp 404 (.str "Not Found") := by
  constructor
  · rfl
  · decide

/-- C3 amended: the program's route resolution reads only the request's
root (`/` + first path segment): an exact key match wins, otherwise the
literal key `*` is the only fallback; deeper path segments never
participate, and on the claim's table it is an added `*` entry — not
`/*/param2` — that catches /x/param2. -/
theorem c3_root_routing :
    (∀ (cfg : Gateway.Config) (a1 a2 : Gateway.Args), a1.root = a2.root →
       Gateway.routeOf cfg a1 = Gateway.routeOf cfg a2)
  ∧ (∀ (cfg : Gateway.Config) (args : Gateway.Args) (l : Gateway.Lambda),
       cfg.lambdas.lookup args.root = some l →
       Gateway.routeOf cfg args = some l)
  ∧ (∀ (cfg : Gateway.Config) (args : Gateway.Args),
       cfg.lambdas.lookup args.root = none →
       Gateway.routeOf cfg args = cfg.lambdas.lookup "*")
  ∧ Gateway.routeOf Gateway.cfgC3star Gateway.argsC3 = some (Gateway.lamNamed "W") := by
  refine ⟨?_, ?_, ?_, ?_⟩
  · intro cfg a1 a2 h
    rw [Gateway.routeOf, Gateway.routeOf, h]
  · intro cfg args l h
    rw [Gateway.routeOf, h]
  · intro cfg args h
    rw [Gateway.routeOf, h]
  · rfl

/-- C3 amended witness: exact root match applied on the C1 fixture table,
and the `*` fallback applied on the claim's table extended with that
key. -/
theorem c3_root_routing_witness :
    Gateway.routeOf Gateway.cfgC1 Gateway.argsC1 = some Gateway.lamAuthTrue
    ∧ Gateway.routeOf Gateway.cfgC3star Gateway.argsC3 =
        Gateway.cfgC3star.lambdas.lookup "*" :=
  ⟨c3_root_routing.2.1 Gateway.cfgC1 Gateway.argsC1 Gateway.lamAuthTrue rfl,
   c3_root_routing.2.2.1 Gateway.cfgC3star Gateway.argsC3 rfl⟩
